import Mathlib

/-!
Verification of `cmd/multitool/multitool.go` (the `chain` repository's debugging
multitool). Each definition below is a shallow embedding of a function of the
source file (or of the Go standard-library routine it calls), with bytes
modelled as `Nat` values below 256, Go strings as Lean `String`s, machine
integers as `Nat`/`Int` with explicit `% 2 ^ 64` where truncation can occur,
and process-terminating `errorf` calls as an explicit `Outcome.fatal`
constructor. External collaborators that are not part of this repository
(the ed25519 / hd25519 key algorithms, the block/tx codecs) are taken as
parameters of the handlers that call them.
-/

namespace Multitool

/-- Result of running one subcommand handler. `printed s` models a successful
`fmt.Println(s)` followed by exit status 0; `fatal m` models
`errorf(m, ...)`, which prints one diagnostic line on standard output and
calls `os.Exit(1)` (non-zero exit status). The model keeps the constant stem
of each `errorf` format string and drops the interpolated suffix. `silent`
models a handler returning without printing (unreachable in `dovarint`,
kept for totality of the mode switch). -/
inductive Outcome
  | printed (s : String)
  | fatal (msg : String)
  | silent
deriving DecidableEq

/-- Result of `input(args, n, usedStdin)`: either the resolved value together
with the updated used-stdin flag, or a fatal error. -/
inductive InputRes
  | ok (value : String) (usedStdin : Bool)
  | fatal (msg : String)
deriving DecidableEq

/-- The stdin-reading arm of `input`: `errorf("can use stdin for only one arg")`
when the flag is already set, otherwise `ioutil.ReadAll(stdin)`. The process's
standard input is modelled as `Option String`: `some s` when the bounded read
drains to the text `s`, `none` when the read fails (e.g. the 5-second timeout
fires), in which case `errorf("unexpected error: %s", err)` runs. -/
def inputStdin (usedStdin : Bool) (stdin : Option String) : InputRes :=
  if usedStdin then InputRes.fatal "can use stdin for only one arg"
  else
    match stdin with
    | some s => InputRes.ok s true
    | none => InputRes.fatal "unexpected error"

/-- `input(args, n, usedStdin)` from multitool.go: an argument that is present
and is not the literal `"-"` is returned verbatim with the flag unchanged;
otherwise the value comes from standard input. -/
def inputFn (args : List String) (n : Nat) (usedStdin : Bool)
    (stdin : Option String) : InputRes :=
  match args[n]? with
  | some a => if a ≠ "-" then InputRes.ok a usedStdin else inputStdin usedStdin stdin
  | none => inputStdin usedStdin stdin

/-- Tag identifying which handler function a registry entry points at. -/
inductive Handler
  | assetid | block | blockheader | derive | genprv | genxprv | hexCmd | hmac512
  | pub | script | sha3Cmd | sign | tx | uvarint | varint | verify | zerohash | help
deriving DecidableEq

/-- A registry entry: handler function plus help and usage strings. -/
structure Command where
  fn : Handler
  help : String
  usage : String
deriving DecidableEq

/-- The `subcommands` map of multitool.go, including the `"help"` entry added
by `init()`. Modelled as an association list with the map's unique keys. -/
def subcommands : List (String × Command) :=
  [("assetid", ⟨Handler.assetid, "compute asset id", "ISSUANCEPROG GENESISHASH"⟩),
   ("block", ⟨Handler.block, "decode and pretty-print a block", "BLOCK"⟩),
   ("blockheader", ⟨Handler.blockheader, "decode and pretty-print a block header", "BLOCKHEADER"⟩),
   ("derive", ⟨Handler.derive, "derive child from given xpub or xprv and given path", "XPUB/XPRV PATH PATH..."⟩),
   ("genprv", ⟨Handler.genprv, "generate prv", ""⟩),
   ("genxprv", ⟨Handler.genxprv, "generate xprv", ""⟩),
   ("hex", ⟨Handler.hexCmd, "string <-> hex", "INPUT"⟩),
   ("hmac512", ⟨Handler.hmac512, "compute the hmac512 digest", "KEY VALUE"⟩),
   ("pub", ⟨Handler.pub, "get pub key from prv, or xpub from xprv", "PRV/XPRV"⟩),
   ("script", ⟨Handler.script, "hex <-> opcodes", "INPUT"⟩),
   ("sha3", ⟨Handler.sha3Cmd, "produce sha3 hash", "INPUT"⟩),
   ("sign", ⟨Handler.sign, "sign, using hex PRV or XPRV, the given hex MSG", "PRV/XPRV MSG"⟩),
   ("tx", ⟨Handler.tx, "decode and pretty-print a transaction", "TX"⟩),
   ("uvarint", ⟨Handler.uvarint, "decimal <-> hex", "[-from|-to] VAL"⟩),
   ("varint", ⟨Handler.varint, "decimal <-> hex", "[-from|-to] VAL"⟩),
   ("verify", ⟨Handler.verify, "verify, using hex PUB or XPUB and the given hex MSG and SIG", "PUB/XPUB MSG SIG"⟩),
   ("zerohash", ⟨Handler.zerohash, "produce an all-zeroes hash", ""⟩),
   ("help", ⟨Handler.help, "show help", "[SUBCOMMAND]"⟩)]

/-- Value of one hex character, as in Go `encoding/hex.fromHexChar`:
digits, lowercase `a`-`f` and uppercase `A`-`F` are accepted. -/
def hexCharVal (c : Char) : Option Nat :=
  if '0' ≤ c ∧ c ≤ '9' then some (c.toNat - 48)
  else if 'a' ≤ c ∧ c ≤ 'f' then some (c.toNat - 87)
  else if 'A' ≤ c ∧ c ≤ 'F' then some (c.toNat - 55)
  else none

/-- Go `encoding/hex.DecodeString` over the character list: bytes are decoded
from successive pairs `a b` as `fromHexChar(a)<<4 | fromHexChar(b)`; an
invalid character or an odd-length input is an error (`none`). -/
def hexDecodeList : List Char → Option (List Nat)
  | [] => some []
  | [_] => none
  | a :: b :: rest =>
    match hexCharVal a, hexCharVal b, hexDecodeList rest with
    | some x, some y, some r => some (((x <<< 4) ||| y) :: r)
    | _, _, _ => none

/-- Go `encoding/hex.DecodeString`. -/
def hexDecode (s : String) : Option (List Nat) := hexDecodeList s.data

/-- Entry `n` of Go `encoding/hex`'s lowercase table `"0123456789abcdef"`. -/
def hexDigit (n : Nat) : Char :=
  if n < 10 then Char.ofNat (48 + n) else Char.ofNat (87 + n)

/-- Go `encoding/hex.EncodeToString` character list: each byte `b` becomes
`hextable[b>>4]` then `hextable[b&0x0f]`. -/
def hexEncodeChars : List Nat → List Char
  | [] => []
  | b :: rest => hexDigit (b >>> 4) :: hexDigit (b &&& 15) :: hexEncodeChars rest

/-- Go `encoding/hex.EncodeToString`. -/
def hexEncode (bs : List Nat) : String := String.mk (hexEncodeChars bs)

/-- Accumulate base-10 digits as in Go `strconv.ParseUint` with base 10:
fails on the first non-digit character. -/
def decDigitsAux : List Char → Nat → Option Nat
  | [], acc => some acc
  | c :: rest, acc =>
    if '0' ≤ c ∧ c ≤ '9' then decDigitsAux rest (acc * 10 + (c.toNat - 48))
    else none

/-- Go `strconv.ParseInt(s, 10, 64)`: optional single leading `+` or `-`,
then a non-empty run of decimal digits, and the value must fit a signed
64-bit integer; every failure (empty digits, stray character, range
overflow) yields a non-nil error, modelled as `none`. -/
def parseInt64 (s : String) : Option Int :=
  match s.data with
  | [] => none
  | c :: rest =>
    match (if c = '-' ∨ c = '+' then rest else c :: rest) with
    | [] => none
    | d :: ds =>
      match decDigitsAux (d :: ds) 0 with
      | none => none
      | some m =>
        if c = '-' then
          if m ≤ 2 ^ 63 then some (-(m : Int)) else none
        else
          if m ≤ 2 ^ 63 - 1 then some (m : Int) else none

/-- Go `binary.MaxVarintLen64`: at most 10 bytes encode a uint64. -/
def maxVarintLen64 : Nat := 10

/-- Loop of Go `encoding/binary.PutUvarint`: while `x >= 0x80` emit
`byte(x) | 0x80` and shift `x` right by 7; finally emit `byte(x)`. The Go
caller writes into a `[10]byte` buffer (`binary.MaxVarintLen64`); the fuel
argument bounds the iterations exactly as that buffer bounds the writes, and
for every `x < 2 ^ 64` ten iterations suffice. -/
def putUvarintAux : Nat → Nat → List Nat
  | 0, _ => []
  | fuel + 1, x =>
    if x < 128 then [x % 256]
    else (x % 256 ||| 128) :: putUvarintAux fuel (x >>> 7)

/-- Go `encoding/binary.PutUvarint` into a 10-byte buffer, returning the
written bytes (the Go function returns their count). -/
def putUvarint (x : Nat) : List Nat := putUvarintAux maxVarintLen64 x

/-- Go `encoding/binary.PutVarint`: zig-zag `ux := uint64(x) << 1`, with
`ux = ^ux` when `x < 0`, then `PutUvarint`. uint64 arithmetic is modelled by
explicit `% 2 ^ 64` and bitwise complement by `2 ^ 64 - 1 - ux`. -/
def putVarint (x : Int) : List Nat :=
  putUvarint
    (if x < 0 then 2 ^ 64 - 1 - ((x % (2 ^ 64 : Int)).toNat <<< 1) % 2 ^ 64
     else ((x % (2 ^ 64 : Int)).toNat <<< 1) % 2 ^ 64)

/-- Loop of Go `encoding/binary.Uvarint` over buffer `buf` with index `i`,
shift `s` and accumulator `x` (a uint64, kept below `2 ^ 64` by the explicit
truncation of each shifted summand): a byte below `0x80` terminates with
`(x | uint64(b)<<s, i+1)` unless it overflows 64 bits; index 10 reports
overflow as `(0, -(i+1))`; a too-short buffer yields `(0, 0)`. -/
def uvarintLoop : List Nat → Nat → Nat → Nat → Nat × Int
  | [], _, _, _ => (0, 0)
  | b :: rest, i, s, x =>
    if i = maxVarintLen64 then (0, -((i : Int) + 1))
    else if b < 128 then
      if i = maxVarintLen64 - 1 ∧ 1 < b then (0, -((i : Int) + 1))
      else (x ||| (b <<< s) % 2 ^ 64, (i : Int) + 1)
    else uvarintLoop rest (i + 1) (s + 7) (x ||| ((b &&& 127) <<< s) % 2 ^ 64)

/-- Go `encoding/binary.Uvarint`. -/
def uvarintGo (buf : List Nat) : Nat × Int := uvarintLoop buf 0 0 0

/-- Go `encoding/binary.Varint`: decode a uvarint `ux`, then undo the
zig-zag: `x := int64(ux >> 1)`, complemented when `ux & 1` is set. -/
def varintGo (buf : List Nat) : Int × Int :=
  match uvarintGo buf with
  | (ux, n) => ((if ux &&& 1 ≠ 0 then -((ux >>> 1 : Nat) : Int) - 1 else ((ux >>> 1 : Nat) : Int)), n)

/-- Go conversion `uint64(x)` of a signed 64-bit value: two's-complement
reduction modulo `2 ^ 64`. -/
def uint64OfInt (x : Int) : Nat := (x % (2 ^ 64 : Int)).toNat

/-- Result of `mustSubcommand`: the looked-up entry, or a fatal diagnostic. -/
inductive DispatchResult
  | dispatched (c : Command)
  | fatal (msg : String)
deriving DecidableEq

/-- `mustSubcommand(name)`: registry lookup; unknown names run
`errorf("unknown subcommand \"%s\"", name)`. -/
def mustSubcommand (name : String) : DispatchResult :=
  match subcommands.lookup name with
  | some c => DispatchResult.dispatched c
  | none => DispatchResult.fatal ("unknown subcommand \"" ++ name ++ "\"")

/-- Flag scan at the top of `dovarint`: a leading `-from` or `-to` argument
selects the mode and is dropped from `args`; any other shape leaves the mode
empty. -/
def parseModeFlag (args : List String) : String × List String :=
  match args with
  | [] => ("", [])
  | a :: rest => if a = "-from" ∨ a = "-to" then (a, rest) else ("", a :: rest)

/-- Go `strings.HasPrefix(val, "0x")` on the resolved value. -/
def goHasPrefix0x (s : String) : Bool :=
  match s.data with
  | a :: b :: _ => a == '0' && b == 'x'
  | _ => false

/-- Mode inference of `dovarint` (runs only when no flag was given): a value
starting with `0x` is hex input with the prefix trimmed; otherwise a value
accepted by `strconv.ParseInt(val, 10, 64)` is decimal input, and a rejected
one is hex input. Returns the chosen mode and the (possibly trimmed) value. -/
def inferMode (val : String) : String × String :=
  if goHasPrefix0x val then ("-from", String.mk (val.data.drop 2))
  else
    match parseInt64 val with
    | some _ => ("-to", val)
    | none => ("-from", val)

/-- The `case "-to"` arm of `dovarint`: parse the value as a base-10 signed
64-bit integer (`errorf("could not parse base 10 int")` on failure), encode
with `binary.PutVarint` or, for the unsigned flavor, `binary.PutUvarint`
applied to `uint64(val10)`, and print the bytes as lowercase hex. -/
def varintToHex (signed : Bool) (val : String) : Outcome :=
  match parseInt64 val with
  | none => Outcome.fatal "could not parse base 10 int"
  | some val10 =>
    if signed then Outcome.printed (hexEncode (putVarint val10))
    else Outcome.printed (hexEncode (putUvarint (uint64OfInt val10)))

/-- The `case "-from"` arm of `dovarint`: hex-decode the value
(`errorf("error decoding hex: %s", err)` on failure, modelled by its stem),
decode a varint or uvarint from the bytes, fail with
`errorf("could not parse varint")` when the decoder consumes `<= 0` bytes,
and print the decimal integer. -/
def varintFromHex (signed : Bool) (val : String) : Outcome :=
  match hexDecode val with
  | none => Outcome.fatal "error decoding hex"
  | some val16 =>
    if signed then
      match varintGo val16 with
      | (n, nbytes) => if nbytes ≤ 0 then Outcome.fatal "could not parse varint" else Outcome.printed (toString n)
    else
      match uvarintGo val16 with
      | (n, nbytes) => if nbytes ≤ 0 then Outcome.fatal "could not parse varint" else Outcome.printed (toString n)

/-- `dovarint(args, signed)` from multitool.go: scan an optional explicit
mode flag, resolve the value via `input`, infer the mode from the value's
shape when no flag was given, then run the `-to` or `-from` arm. The Go
switch has no default arm, so an empty mode (unreachable) returns with no
output. -/
def dovarint (args : List String) (stdin : Option String) (signed : Bool) : Outcome :=
  match parseModeFlag args with
  | (mode, rest) =>
    match inputFn rest 0 false stdin with
    | InputRes.fatal m => Outcome.fatal m
    | InputRes.ok val _ =>
      match (if mode = "" then inferMode val else (mode, val)) with
      | (mode2, val2) =>
        if mode2 = "-to" then varintToHex signed val2
        else if mode2 = "-from" then varintFromHex signed val2
        else Outcome.silent

/-- The `varint` subcommand: `dovarint(args, true)`. -/
def varintCmd (args : List String) (stdin : Option String) : Outcome :=
  dovarint args stdin true

/-- The `uvarint` subcommand: `dovarint(args, false)`. -/
def uvarintCmd (args : List String) (stdin : Option String) : Outcome :=
  dovarint args stdin false

/-- `pub(args)` from multitool.go, parameterized by the external hd25519 /
ed25519 collaborators: try `hd25519.XPrvFromString` first and print the
derived extended public key; otherwise `mustDecodeHex` the input (fatal on
invalid hex) and try `hd25519.PrvFromBytes`, printing the hex raw public
key; when both parses fail, `errorf("could not parse key")`. -/
def pubCmd (XPrv Prv : Type) (xprvFromString : String → Option XPrv)
    (prvFromBytes : List Nat → Option Prv) (xprvPublicString : XPrv → String)
    (prvPublicBytes : Prv → List Nat) (args : List String)
    (stdin : Option String) : Outcome :=
  match inputFn args 0 false stdin with
  | InputRes.fatal m => Outcome.fatal m
  | InputRes.ok inp _ =>
    match xprvFromString inp with
    | some xprv => Outcome.printed (xprvPublicString xprv)
    | none =>
      match hexDecode inp with
      | none => Outcome.fatal "error decoding hex"
      | some bs =>
        match prvFromBytes bs with
        | some prv => Outcome.printed (hexEncode (prvPublicBytes prv))
        | none => Outcome.fatal "could not parse key"

/-- `sign(args)` from multitool.go: resolve key then message, run the key
disambiguation (extended private first, then raw bytes after `mustDecodeHex`,
then `errorf("could not parse key")`), `mustDecodeHex` the message, and print
the hex signature from the selected signer. -/
def signCmd (XPrv Prv : Type) (xprvFromString : String → Option XPrv)
    (prvFromBytes : List Nat → Option Prv) (xprvSign : XPrv → List Nat → List Nat)
    (prvSign : Prv → List Nat → List Nat) (args : List String)
    (stdin : Option String) : Outcome :=
  match inputFn args 0 false stdin with
  | InputRes.fatal m => Outcome.fatal m
  | InputRes.ok keyInp used =>
    match inputFn args 1 used stdin with
    | InputRes.fatal m => Outcome.fatal m
    | InputRes.ok msgInp _ =>
      match xprvFromString keyInp with
      | some xprv =>
        match hexDecode msgInp with
        | none => Outcome.fatal "error decoding hex"
        | some msg => Outcome.printed (hexEncode (xprvSign xprv msg))
      | none =>
        match hexDecode keyInp with
        | none => Outcome.fatal "error decoding hex"
        | some kb =>
          match prvFromBytes kb with
          | none => Outcome.fatal "could not parse key"
          | some prv =>
            match hexDecode msgInp with
            | none => Outcome.fatal "error decoding hex"
            | some msg => Outcome.printed (hexEncode (prvSign prv msg))

/-- `verify(args)` from multitool.go: resolve key, message and signature,
disambiguate the key (extended public first, then raw public bytes, then
`errorf("could not parse key")`), `mustDecodeHex` message and signature, and
print the literal `"verified"` or `"not verified"` according to the boolean
verification result — a plain printed line, never `errorf`. -/
def verifyCmd (XPub Pub : Type) (xpubFromString : String → Option XPub)
    (pubFromBytes : List Nat → Option Pub)
    (xpubVerify : XPub → List Nat → List Nat → Bool)
    (pubVerify : Pub → List Nat → List Nat → Bool) (args : List String)
    (stdin : Option String) : Outcome :=
  match inputFn args 0 false stdin with
  | InputRes.fatal m => Outcome.fatal m
  | InputRes.ok keyInp u1 =>
    match inputFn args 1 u1 stdin with
    | InputRes.fatal m => Outcome.fatal m
    | InputRes.ok msgInp u2 =>
      match inputFn args 2 u2 stdin with
      | InputRes.fatal m => Outcome.fatal m
      | InputRes.ok sigInp _ =>
        match xpubFromString keyInp with
        | some xpub =>
          match hexDecode msgInp with
          | none => Outcome.fatal "error decoding hex"
          | some msg =>
            match hexDecode sigInp with
            | none => Outcome.fatal "error decoding hex"
            | some sig =>
              Outcome.printed (if xpubVerify xpub msg sig then "verified" else "not verified")
        | none =>
          match hexDecode keyInp with
          | none => Outcome.fatal "error decoding hex"
          | some kb =>
            match pubFromBytes kb with
            | none => Outcome.fatal "could not parse key"
            | some pk =>
              match hexDecode msgInp with
              | none => Outcome.fatal "error decoding hex"
              | some msg =>
                match hexDecode sigInp with
                | none => Outcome.fatal "error decoding hex"
                | some sig =>
                  Outcome.printed (if pubVerify pk msg sig then "verified" else "not verified")

/-- `block(args)` from multitool.go, parameterized by the external block
codec (`json.Unmarshal` into `bc.Block`) and pretty-printer (`spew.Printf`):
resolve one input, decode it, pretty-print on success, and
`errorf("error unmarshaling block: %s", err)` on failure. -/
def blockCmd (A : Type) (unmarshal : String → Option A) (render : A → String)
    (args : List String) (stdin : Option String) : Outcome :=
  match inputFn args 0 false stdin with
  | InputRes.fatal m => Outcome.fatal m
  | InputRes.ok inp _ =>
    match unmarshal inp with
    | none => Outcome.fatal "error unmarshaling block"
    | some b => Outcome.printed (render b)

/-- `blockheader(args)` from multitool.go, same shape as `block` with the
`bc.BlockHeader` codec. -/
def blockheaderCmd (A : Type) (unmarshal : String → Option A) (render : A → String)
    (args : List String) (stdin : Option String) : Outcome :=
  match inputFn args 0 false stdin with
  | InputRes.fatal m => Outcome.fatal m
  | InputRes.ok inp _ =>
    match unmarshal inp with
    | none => Outcome.fatal "error unmarshaling blockheader"
    | some b => Outcome.printed (render b)

/-- `tx(args)` from multitool.go, same shape with `bc.TxData.UnmarshalText`. -/
def txCmd (A : Type) (unmarshal : String → Option A) (render : A → String)
    (args : List String) (stdin : Option String) : Outcome :=
  match inputFn args 0 false stdin with
  | InputRes.fatal m => Outcome.fatal m
  | InputRes.ok inp _ =>
    match unmarshal inp with
    | none => Outcome.fatal "error unmarshaling tx"
    | some b => Outcome.printed (render b)

/-- The fixed limit of the `stdin` timed reader: `5 * time.Second`. -/
def timedReaderLimitSeconds : Nat := 5

/-- Capacity of `readRes := make(chan readResult)` in `timedReader.Read`:
an unbuffered Go channel has capacity 0. -/
def readResChanCapacity : Nat := 0

/-- Error component of a read, Go style: `none` is a nil error, `eof` models
`io.EOF`, `deadlineExceeded` models `ctx.Err()` after the 5-second context
expires. -/
inductive ReadErr
  | eof
  | deadlineExceeded
deriving DecidableEq

/-- One invocation of `timedReader.Read`, abstracted over the environment:
whether (and at which whole second) the wrapped blocking `Read` returns, and
with what byte count and error. -/
structure ReadScenario where
  underlyingReturnsAt : Option Nat
  underlyingBytes : Nat
  underlyingEof : Bool
deriving DecidableEq

/-- The select race in `timedReader.Read`: the goroutine's channel send is
received iff the wrapped read returns strictly before the
`timedReaderLimitSeconds` deadline fires on `ctx.Done()`. -/
def underlyingWinsRace (sc : ReadScenario) : Bool :=
  match sc.underlyingReturnsAt with
  | some t => decide (t < timedReaderLimitSeconds)
  | none => false

/-- Value returned by `timedReader.Read`: the underlying `(n, err)` when the
read wins the race, `(0, ctx.Err())` when the timeout fires first. -/
def timedRead (sc : ReadScenario) : Nat × Option ReadErr :=
  if underlyingWinsRace sc then
    (sc.underlyingBytes, if sc.underlyingEof then some ReadErr.eof else none)
  else (0, some ReadErr.deadlineExceeded)

/-- Final state of the goroutine spawned by `timedReader.Read`. -/
inductive GoroutineFate
  | terminated
  | blockedOnChannelSend
  | blockedInRead
deriving DecidableEq

/-- Fate of the spawned goroutine `func() { n, err := r.Reader.Read(buf);
readRes <- readResult{n, err}; close(readRes) }`: if the wrapped read never
returns it stays blocked in `Read`; if it returns before the deadline, the
select receives the send and the goroutine terminates; if it returns after
the deadline, `timedReader.Read` has already returned on `ctx.Done()` and no
receiver on `readRes` ever runs again, so the send completes only if the
channel is buffered — with capacity 0 the goroutine blocks on the send
forever. -/
def readGoroutineFate (sc : ReadScenario) : GoroutineFate :=
  match sc.underlyingReturnsAt with
  | none => GoroutineFate.blockedInRead
  | some t =>
    if t < timedReaderLimitSeconds then GoroutineFate.terminated
    else if 0 < readResChanCapacity then GoroutineFate.terminated
    else GoroutineFate.blockedOnChannelSend

/-! ### Arithmetic helpers for the varint codec -/

theorem lor_shiftLeft_eq_add (x z s : Nat) (hx : x < 2 ^ s) :
    x ||| z <<< s = 2 ^ s * z + x := by
  apply Nat.eq_of_testBit_eq
  intro j
  rw [Nat.testBit_mul_pow_two_add z hx j, Nat.testBit_lor, Nat.testBit_shiftLeft]
  by_cases hj : j < s
  · have h1 : ¬ s ≤ j := by omega
    simp [hj, h1]
  · have h1 : s ≤ j := by omega
    have h2 : x < 2 ^ j := lt_of_lt_of_le hx (Nat.pow_le_pow_right (by norm_num) h1)
    simp [hj, h1, Nat.testBit_lt_two_pow h2]

set_option maxRecDepth 40000 in
theorem lor_128_eq (m : Nat) (hm : m < 256) : m ||| 128 = m % 128 + 128 := by
  revert hm
  revert m
  decide

theorem and_127_eq (b : Nat) : b &&& 127 = b % 128 := by
  have h := Nat.and_pow_two_sub_one_eq_mod b 7
  norm_num at h
  exact h

theorem putUvarintAux_length_pos (fuel x : Nat) :
    0 < (putUvarintAux (fuel + 1) x).length := by
  rw [putUvarintAux]
  split <;> simp

theorem putUvarintAux_mem_lt (fuel : Nat) :
    ∀ x, ∀ b ∈ putUvarintAux fuel x, b < 256 := by
  induction fuel with
  | zero => intro x b hb; simp [putUvarintAux] at hb
  | succ fuel ih =>
    intro x b hb
    rw [putUvarintAux] at hb
    by_cases hx : x < 128
    · rw [if_pos hx] at hb
      simp at hb
      omega
    · rw [if_neg hx] at hb
      rcases List.mem_cons.mp hb with h | h
      · subst h
        rw [lor_128_eq (x % 256) (by omega)]
        omega
      · exact ih (x >>> 7) b h

theorem uvarintLoop_last (x i acc : Nat) (hx : x < 128) (hi : i ≤ 9)
    (hacc : acc < 2 ^ (7 * i)) (hxr : x < 2 ^ (64 - 7 * i)) :
    uvarintLoop [x % 256] i (7 * i) acc = (acc + 2 ^ (7 * i) * x, (i : Int) + 1) := by
  have hx256 : x % 256 = x := Nat.mod_eq_of_lt (by omega)
  rw [hx256, uvarintLoop]
  rw [if_neg (by simp [maxVarintLen64]; omega)]
  rw [if_pos hx]
  rw [if_neg (by
    simp only [maxVarintLen64]
    rintro ⟨h9, hb⟩
    have : i = 9 := by omega
    subst this
    norm_num at hxr
    omega)]
  have hle : 7 * i ≤ 63 := by omega
  have hshift : x <<< (7 * i) < 2 ^ 64 := by
    rw [Nat.shiftLeft_eq]
    calc x * 2 ^ (7 * i) < 2 ^ (64 - 7 * i) * 2 ^ (7 * i) :=
          Nat.mul_lt_mul_of_lt_of_le hxr (le_refl _) (Nat.pos_pow_of_pos _ (by norm_num))
    _ = 2 ^ 64 := by rw [← pow_add]; congr 1; omega
  rw [Nat.mod_eq_of_lt hshift, lor_shiftLeft_eq_add acc x (7 * i) hacc]
  simp [Nat.add_comm]

theorem uvarintLoop_putUvarintAux (fuel : Nat) : ∀ (x i acc : Nat),
    x < 2 ^ (7 * (fuel + 1)) → fuel + 1 + i ≤ 10 → acc < 2 ^ (7 * i) →
    x < 2 ^ (64 - 7 * i) →
    uvarintLoop (putUvarintAux (fuel + 1) x) i (7 * i) acc =
      (acc + 2 ^ (7 * i) * x, (i : Int) + (putUvarintAux (fuel + 1) x).length) := by
  induction fuel with
  | zero =>
    intro x i acc h1 h2 h3 h4
    have hx : x < 128 := by norm_num at h1; omega
    rw [putUvarintAux, if_pos hx]
    simpa using uvarintLoop_last x i acc hx (by omega) h3 h4
  | succ fuel ih =>
    intro x i acc h1 h2 h3 h4
    by_cases hx : x < 128
    · rw [putUvarintAux, if_pos hx]
      simpa using uvarintLoop_last x i acc hx (by omega) h3 h4
    · rw [putUvarintAux, if_neg hx]
      have hi8 : i ≤ 8 := by omega
      have hb256 : x % 256 < 256 := by omega
      have hbval : x % 256 ||| 128 = x % 128 + 128 := by
        rw [lor_128_eq (x % 256) hb256]; omega
      rw [uvarintLoop]
      rw [if_neg (by simp [maxVarintLen64]; omega)]
      rw [if_neg (by rw [hbval]; omega)]
      have hand : (x % 256 ||| 128) &&& 127 = x % 128 := by
        rw [and_127_eq]; omega
      rw [hand]
      have hsh : (x % 128) <<< (7 * i) < 2 ^ 64 := by
        rw [Nat.shiftLeft_eq]
        calc (x % 128) * 2 ^ (7 * i) < 128 * 2 ^ (7 * i) :=
              Nat.mul_lt_mul_of_lt_of_le (by omega) (le_refl _) (Nat.pos_pow_of_pos _ (by norm_num))
        _ = 2 ^ (7 * i + 7) := by rw [pow_add]; ring
        _ ≤ 2 ^ 64 := Nat.pow_le_pow_right (by norm_num) (by omega)
      rw [Nat.mod_eq_of_lt hsh, lor_shiftLeft_eq_add acc (x % 128) (7 * i) h3]
      have hacc2 : 2 ^ (7 * i) * (x % 128) + acc < 2 ^ (7 * (i + 1)) := by
        have : 2 ^ (7 * i) * (x % 128) + acc < 2 ^ (7 * i) * 128 := by
          have h127 : x % 128 ≤ 127 := by omega
          calc 2 ^ (7 * i) * (x % 128) + acc < 2 ^ (7 * i) * (x % 128) + 2 ^ (7 * i) := by omega
          _ = 2 ^ (7 * i) * (x % 128 + 1) := by ring
          _ ≤ 2 ^ (7 * i) * 128 := Nat.mul_le_mul_left _ (by omega)
        calc 2 ^ (7 * i) * (x % 128) + acc < 2 ^ (7 * i) * 128 := this
        _ = 2 ^ (7 * (i + 1)) := by rw [show 7 * (i + 1) = 7 * i + 7 by ring, pow_add]; ring
      have hdiv : x >>> 7 = x / 128 := by
        rw [Nat.shiftRight_eq_div_pow]
      have h1' : x / 128 < 2 ^ (7 * (fuel + 1)) := by
        rw [Nat.div_lt_iff_lt_mul (by norm_num : (0:Nat) < 128)]
        calc x < 2 ^ (7 * (fuel + 1 + 1)) := h1
        _ = 2 ^ (7 * (fuel + 1)) * 128 := by
            rw [show 7 * (fuel + 1 + 1) = 7 * (fuel + 1) + 7 by ring, pow_add]; norm_num
      have h4' : x / 128 < 2 ^ (64 - 7 * (i + 1)) := by
        rw [Nat.div_lt_iff_lt_mul (by norm_num : (0:Nat) < 128)]
        calc x < 2 ^ (64 - 7 * i) := h4
        _ = 2 ^ (64 - 7 * (i + 1)) * 128 := by
            rw [show (64 - 7 * (i + 1)) = 64 - 7 * i - 7 by omega]
            rw [show (128 : Nat) = 2 ^ 7 by norm_num, ← pow_add]
            congr 1
            omega
      have ihres := ih (x / 128) (i + 1) (2 ^ (7 * i) * (x % 128) + acc) h1' (by omega) hacc2 h4'
      rw [show 7 * i + 7 = 7 * (i + 1) by ring, hdiv, ihres]
      rw [Prod.mk.injEq]
      refine ⟨?_, ?_⟩
      · have hmd : x % 128 + 128 * (x / 128) = x := by omega
        calc 2 ^ (7 * i) * (x % 128) + acc + 2 ^ (7 * (i + 1)) * (x / 128)
            = acc + 2 ^ (7 * i) * (x % 128 + 128 * (x / 128)) := by
              rw [show 7 * (i + 1) = 7 * i + 7 by ring, pow_add]; ring
        _ = acc + 2 ^ (7 * i) * x := by rw [hmd]
      · simp [List.length_cons]
        ring

/-- Round trip of the unsigned codec at the byte level: decoding the bytes
written by `PutUvarint` yields the original uint64 and a positive count. -/
theorem uvarint_roundtrip (x : Nat) (hx : x < 2 ^ 64) :
    uvarintGo (putUvarint x) = (x, ((putUvarint x).length : Int)) := by
  have h := uvarintLoop_putUvarintAux 9 x 0 0
    (lt_of_lt_of_le hx (Nat.pow_le_pow_right (by norm_num) (by norm_num)))
    (by norm_num) (by norm_num) (by simpa using hx)
  simp only [Nat.mul_zero, pow_zero, Nat.cast_zero] at h
  simpa [uvarintGo, putUvarint, maxVarintLen64] using h

theorem putUvarint_length_pos (x : Nat) : 0 < (putUvarint x).length :=
  putUvarintAux_length_pos 9 x

/-- Round trip of the signed codec at the byte level: decoding the bytes
written by `PutVarint` undoes the zig-zag and yields the original int64. -/
theorem varint_roundtrip (x : Int) (h1 : -(2 ^ 63) ≤ x) (h2 : x < 2 ^ 63) :
    varintGo (putVarint x) = (x, ((putVarint x).length : Int)) := by
  have h64 : ((2 : Int) ^ 64) = 18446744073709551616 := by norm_num
  have h63 : ((2 : Int) ^ 63) = 9223372036854775808 := by norm_num
  have h64n : ((2 : Nat) ^ 64) = 18446744073709551616 := by norm_num
  rw [h63] at h1 h2
  rcases le_or_lt 0 x with hx | hx
  · -- nonnegative: the zig-zag value is 2 * x
    have hmodeq : x % ((2 : Int) ^ 64) = x := by rw [h64]; omega
    have htn : (x % ((2 : Int) ^ 64)).toNat = x.toNat := by rw [hmodeq]
    have htlt : x.toNat < 9223372036854775808 := by omega
    have harg : (if x < 0 then 2 ^ 64 - 1 - ((x % (2 ^ 64 : Int)).toNat <<< 1) % 2 ^ 64
        else ((x % (2 ^ 64 : Int)).toNat <<< 1) % 2 ^ 64) = 2 * x.toNat := by
      rw [if_neg (by omega), htn, Nat.shiftLeft_eq, pow_one, Nat.mod_eq_of_lt (by omega)]
      ring
    have hrt := uvarint_roundtrip (2 * x.toNat) (by omega)
    simp only [putVarint, harg, varintGo, hrt]
    have hand : 2 * x.toNat &&& 1 = 0 := by rw [Nat.and_one_is_mod]; omega
    have hsr : (2 * x.toNat) >>> 1 = x.toNat := by
      rw [Nat.shiftRight_eq_div_pow, pow_one]; omega
    rw [hand, hsr]
    simp [Int.toNat_of_nonneg hx]
  · -- negative: the zig-zag value is 2 * natAbs x - 1
    have hm1 : 1 ≤ x.natAbs := by omega
    have hm2 : x.natAbs ≤ 9223372036854775808 := by omega
    have htn : (x % ((2 : Int) ^ 64)).toNat = 18446744073709551616 - x.natAbs := by
      rw [h64]; omega
    have harg : (if x < 0 then 2 ^ 64 - 1 - ((x % (2 ^ 64 : Int)).toNat <<< 1) % 2 ^ 64
        else ((x % (2 ^ 64 : Int)).toNat <<< 1) % 2 ^ 64) = 2 * x.natAbs - 1 := by
      rw [if_pos hx, htn, Nat.shiftLeft_eq, pow_one, h64n]
      have hmod : (18446744073709551616 - x.natAbs) * 2 % 18446744073709551616 =
          18446744073709551616 - 2 * x.natAbs := by omega
      rw [hmod]
      omega
    have hrt := uvarint_roundtrip (2 * x.natAbs - 1) (by omega)
    simp only [putVarint, harg, varintGo, hrt]
    have hand : (2 * x.natAbs - 1) &&& 1 = 1 := by rw [Nat.and_one_is_mod]; omega
    have hsr : (2 * x.natAbs - 1) >>> 1 = x.natAbs - 1 := by
      rw [Nat.shiftRight_eq_div_pow, pow_one]; omega
    have hcast : ((x.natAbs - 1 : Nat) : Int) = -x - 1 := by
      rw [Nat.cast_sub hm1]
      omega
    rw [hand, hsr, if_pos (by norm_num : (1 : Nat) ≠ 0), hcast]
    rw [Prod.mk.injEq]
    constructor
    · ring
    · rfl

/-! ### Hex codec round trip -/

set_option maxRecDepth 4000 in
theorem hexCharVal_hexDigit : ∀ n, n < 16 → hexCharVal (hexDigit n) = some n := by
  decide

theorem hexEncodeChars_length (bs : List Nat) :
    (hexEncodeChars bs).length = 2 * bs.length := by
  induction bs with
  | nil => rfl
  | cons b rest ih =>
    simp [hexEncodeChars, ih]
    ring

theorem hexEncode_ne_dash (bs : List Nat) : hexEncode bs ≠ "-" := by
  intro h
  have hdata : hexEncodeChars bs = ['-'] := congrArg String.data h
  have hlen := congrArg List.length hdata
  rw [hexEncodeChars_length] at hlen
  simp at hlen

theorem hexDecodeList_hexEncodeChars : ∀ bs : List Nat, (∀ b ∈ bs, b < 256) →
    hexDecodeList (hexEncodeChars bs) = some bs := by
  intro bs
  induction bs with
  | nil => intro _; rfl
  | cons b rest ih =>
    intro h
    have hb : b < 256 := h b (by simp)
    have hhi : b >>> 4 < 16 := by rw [Nat.shiftRight_eq_div_pow]; norm_num; omega
    have hlo : b &&& 15 < 16 := by
      have h15 : b &&& 15 = b % 16 := by
        have := Nat.and_pow_two_sub_one_eq_mod b 4
        norm_num at this
        exact this
      omega
    rw [hexEncodeChars, hexDecodeList, hexCharVal_hexDigit _ hhi,
      hexCharVal_hexDigit _ hlo, ih (fun y hy => h y (by simp [hy]))]
    show some ((b >>> 4 <<< 4 ||| b &&& 15) :: rest) = some (b :: rest)
    have h15 : b &&& 15 = b % 16 := by
      have := Nat.and_pow_two_sub_one_eq_mod b 4
      norm_num at this
      exact this
    have h4 : b >>> 4 = b / 16 := by rw [Nat.shiftRight_eq_div_pow]
    have hbyte : b >>> 4 <<< 4 ||| b &&& 15 = b := by
      rw [h15, h4, Nat.lor_comm, lor_shiftLeft_eq_add (b % 16) (b / 16) 4 (by omega)]
      have h16 : (2 : Nat) ^ 4 = 16 := by norm_num
      rw [h16]
      omega
    rw [hbyte]

theorem hexDecode_hexEncode (bs : List Nat) (h : ∀ b ∈ bs, b < 256) :
    hexDecode (hexEncode bs) = some bs :=
  hexDecodeList_hexEncodeChars bs h

/-! ### parseInt64 facts -/

theorem parseInt64_dash : parseInt64 "-" = none := by decide

theorem parseInt64_some_ne_dash (s : String) (n : Int)
    (h : parseInt64 s = some n) : s ≠ "-" := by
  intro he
  rw [he, parseInt64_dash] at h
  cases h

theorem parseInt64_range (s : String) (n : Int) (h : parseInt64 s = some n) :
    -(2 ^ 63) ≤ n ∧ n < 2 ^ 63 := by
  have e63 : (2 : Nat) ^ 63 = 9223372036854775808 := by norm_num
  have e63i : (2 : Int) ^ 63 = 9223372036854775808 := by norm_num
  rw [parseInt64] at h
  rw [e63i]
  split at h
  · cases h
  · split at h
    · cases h
    · split at h
      · cases h
      · rw [e63] at h
        split at h <;> split at h <;> cases h <;> omega

/-! ### Evaluation lemmas for the resolver and dovarint -/

theorem inputFn_lit (args : List String) (n : Nat) (used : Bool)
    (stdin : Option String) (a : String) (h : args[n]? = some a) (ha : a ≠ "-") :
    inputFn args n used stdin = InputRes.ok a used := by
  simp [inputFn, h, ha]

theorem dovarint_explicit_to (s : String) (hs : s ≠ "-") (stdin : Option String)
    (sg : Bool) : dovarint ["-to", s] stdin sg = varintToHex sg s := by
  have hflag : parseModeFlag ["-to", s] = ("-to", [s]) := by simp [parseModeFlag]
  have hin : inputFn [s] 0 false stdin = InputRes.ok s false :=
    inputFn_lit [s] 0 false stdin s rfl hs
  simp [dovarint, hflag, hin]

theorem dovarint_explicit_from (s : String) (hs : s ≠ "-") (stdin : Option String)
    (sg : Bool) : dovarint ["-from", s] stdin sg = varintFromHex sg s := by
  have hflag : parseModeFlag ["-from", s] = ("-from", [s]) := by simp [parseModeFlag]
  have hin : inputFn [s] 0 false stdin = InputRes.ok s false :=
    inputFn_lit [s] 0 false stdin s rfl hs
  simp [dovarint, hflag, hin]

theorem dovarint_infer (v : String) (hv1 : v ≠ "-") (hv2 : v ≠ "-from")
    (hv3 : v ≠ "-to") (stdin : Option String) (sg : Bool) :
    dovarint [v] stdin sg =
      (if goHasPrefix0x v then varintFromHex sg (String.mk (v.data.drop 2))
       else
         match parseInt64 v with
         | some _ => varintToHex sg v
         | none => varintFromHex sg v) := by
  have hflag : parseModeFlag [v] = ("", [v]) := by simp [parseModeFlag, hv2, hv3]
  have hin : inputFn [v] 0 false stdin = InputRes.ok v false :=
    inputFn_lit [v] 0 false stdin v rfl hv1
  by_cases h0 : goHasPrefix0x v
  · simp [dovarint, hflag, hin, inferMode, h0]
  · cases hp : parseInt64 v <;> simp [dovarint, hflag, hin, inferMode, h0, hp]

theorem goHasPrefix0x_data (s : String) (h : goHasPrefix0x s = true) :
    ∃ r, s.data = '0' :: 'x' :: r := by
  unfold goHasPrefix0x at h
  rcases hd : s.data with _ | ⟨a, _ | ⟨b, r⟩⟩ <;> rw [hd] at h <;> simp at h
  exact ⟨r, by rw [h.1, h.2]⟩

theorem hexDecode_0x_none (v : String) (r : List Char)
    (hr : v.data = '0' :: 'x' :: r) : hexDecode v = none := by
  have hx : hexCharVal 'x' = none := by decide
  have h0 : hexCharVal '0' = some 0 := by decide
  rcases hrl : hexDecodeList r with _ | bs <;>
    simp [hexDecode, hr, hexDecodeList, hrl, hx, h0]

/-! ### Claim C5: the concrete uvarint scenario -/

/-- C5: running `uvarint 300` prints the hex string "ac02", and running
`uvarint 0xac02` prints the decimal "300". -/
theorem claim5_uvarint_concrete :
    uvarintCmd ["300"] none = Outcome.printed "ac02"
    ∧ uvarintCmd ["0xac02"] none = Outcome.printed "300" := by
  constructor <;> decide

/-! ### Claim C3: mode inference -/

/-- C3: with no explicit flag, the direction of `dovarint` is inferred once
from the resolved value's shape: a `0x` prefix selects hex input with the
prefix stripped; otherwise a value parsed by `strconv.ParseInt(·, 10, 64)`
is encoded to hex, and a non-parsing value is treated as hex input, which
must hex-decode or the operation fails fatally with the hex-decode error. -/
theorem claim3_mode_inference (v : String) (stdin : Option String) (sg : Bool)
    (h1 : v ≠ "-") (h2 : v ≠ "-from") (h3 : v ≠ "-to") :
    (goHasPrefix0x v = true →
      dovarint [v] stdin sg = varintFromHex sg (String.mk (v.data.drop 2)))
    ∧ (goHasPrefix0x v = false → ∀ n, parseInt64 v = some n →
      dovarint [v] stdin sg = varintToHex sg v)
    ∧ (goHasPrefix0x v = false → parseInt64 v = none →
      dovarint [v] stdin sg = varintFromHex sg v)
    ∧ (goHasPrefix0x v = false → parseInt64 v = none → hexDecode v = none →
      dovarint [v] stdin sg = Outcome.fatal "error decoding hex") := by
  rw [dovarint_infer v h1 h2 h3 stdin sg]
  refine ⟨?_, ?_, ?_, ?_⟩
  · intro h0
    rw [if_pos h0]
  · intro h0 n hp
    rw [if_neg (by simp [h0]), hp]
  · intro h0 hp
    rw [if_neg (by simp [h0]), hp]
  · intro h0 hp hhex
    rw [if_neg (by simp [h0]), hp]
    simp [varintFromHex, hhex]

/-- Witness for C3 at concrete inputs. -/
theorem claim3_mode_inference_witness :
    dovarint ["zz"] none false = Outcome.fatal "error decoding hex"
    ∧ dovarint ["0xac02"] none true = varintFromHex true (String.mk ("0xac02".data.drop 2)) :=
  ⟨(claim3_mode_inference "zz" none false (by decide) (by decide) (by decide)).2.2.2
      (by decide) (by decide) (by decide),
   (claim3_mode_inference "0xac02" none true (by decide) (by decide) (by decide)).1
      (by decide)⟩

/-! ### Claim C10: explicit -from does not strip 0x -/

/-- C10: with an explicit `-from` flag a leading `0x` prefix is not
stripped, so the value fails hex decoding and the run is fatal with the
hex-decode error, whereas the same value with no flag is accepted because
mode inference strips the prefix. -/
theorem claim10_from_no_strip (v : String) (stdin : Option String) (sg : Bool)
    (h : goHasPrefix0x v = true) :
    dovarint ["-from", v] stdin sg = Outcome.fatal "error decoding hex"
    ∧ dovarint [v] stdin sg = varintFromHex sg (String.mk (v.data.drop 2)) := by
  obtain ⟨r, hr⟩ := goHasPrefix0x_data v h
  have hvne : ∀ (w : String) (c : Char) (t : List Char),
      w.data = c :: t → c ≠ '0' → v ≠ w := by
    intro w c t hw hc he
    subst he
    rw [hw] at hr
    injection hr with hh _
    exact hc hh
  have hv1 : v ≠ "-" := hvne "-" '-' [] rfl (by decide)
  have hv2 : v ≠ "-from" := hvne "-from" '-' ['f', 'r', 'o', 'm'] rfl (by decide)
  have hv3 : v ≠ "-to" := hvne "-to" '-' ['t', 'o'] rfl (by decide)
  constructor
  · rw [dovarint_explicit_from v hv1 stdin sg]
    simp [varintFromHex, hexDecode_0x_none v r hr]
  · rw [dovarint_infer v hv1 hv2 hv3 stdin sg, if_pos h]

/-- Witness for C10 at the concrete value `0xac02`. -/
theorem claim10_from_no_strip_witness :
    dovarint ["-from", "0xac02"] none false = Outcome.fatal "error decoding hex"
    ∧ dovarint ["0xac02"] none false = varintFromHex false (String.mk ("0xac02".data.drop 2)) :=
  claim10_from_no_strip "0xac02" none false (by decide)

/-! ### Claim C1: round trip of the varint codec through dovarint -/

theorem uint64OfInt_lt (x : Int) : uint64OfInt x < 2 ^ 64 := by
  unfold uint64OfInt
  have h64i : ((2 : Int) ^ 64) = 18446744073709551616 := by norm_num
  have h64n : ((2 : Nat) ^ 64) = 18446744073709551616 := by norm_num
  rw [h64i, h64n]
  omega

theorem uint64OfInt_of_nonneg (x : Int) (h0 : 0 ≤ x) (h1 : x < 2 ^ 63) :
    uint64OfInt x = x.toNat := by
  unfold uint64OfInt
  have h64i : ((2 : Int) ^ 64) = 18446744073709551616 := by norm_num
  have h63i : ((2 : Int) ^ 63) = 9223372036854775808 := by norm_num
  rw [h64i]
  rw [h63i] at h1
  omega

theorem putVarint_mem_lt (x : Int) : ∀ b ∈ putVarint x, b < 256 := by
  intro b hb
  exact putUvarintAux_mem_lt maxVarintLen64 _ b hb

theorem putUvarint_mem_lt (u : Nat) : ∀ b ∈ putUvarint u, b < 256 := by
  intro b hb
  exact putUvarintAux_mem_lt maxVarintLen64 u b hb

theorem putVarint_length_pos (x : Int) : 0 < (putVarint x).length :=
  putUvarintAux_length_pos 9 _

theorem varintFromHex_signed_eval (bs : List Nat) (hb : ∀ b ∈ bs, b < 256)
    (x len : Int) (hdec : varintGo bs = (x, len)) (hpos : 0 < len) :
    varintFromHex true (hexEncode bs) = Outcome.printed (toString x) := by
  rcases huv : uvarintGo bs with ⟨u, len2⟩
  have hx : varintGo bs
      = ((if u &&& 1 ≠ 0 then -((u >>> 1 : Nat) : Int) - 1 else ((u >>> 1 : Nat) : Int)), len2) := by
    rw [varintGo, huv]
  rw [hdec, Prod.mk.injEq] at hx
  obtain ⟨hx1, hx2⟩ := hx
  simp only [varintFromHex, varintGo, hexDecode_hexEncode bs hb, huv]
  rw [← hx1, ← hx2, if_neg (not_le.mpr hpos)]
  simp

theorem varintFromHex_unsigned_eval (bs : List Nat) (hb : ∀ b ∈ bs, b < 256)
    (u : Nat) (len : Int) (hdec : uvarintGo bs = (u, len)) (hpos : 0 < len) :
    varintFromHex false (hexEncode bs) = Outcome.printed (toString u) := by
  simp only [varintFromHex, hexDecode_hexEncode bs hb, hdec]
  rw [if_neg (not_le.mpr hpos)]
  simp

/-- C1 counterexample: the decimal value `9223372036854775808 = 2 ^ 63` lies
in the unsigned 64-bit range, yet `uvarint -to` rejects it with a fatal
parse error (the decimal input is parsed as a *signed* 64-bit integer), so
no hex output exists and the unsigned round trip fails at this input. -/
theorem claim1_roundtrip_counterexample :
    uvarintCmd ["-to", "9223372036854775808"] none
      = Outcome.fatal "could not parse base 10 int"
    ∧ (9223372036854775808 : Nat) < 2 ^ 64 := by
  constructor <;> decide

/-- C1 (amended): for every decimal string accepted by
`strconv.ParseInt(s, 10, 64)` — i.e. every integer in the signed 64-bit
range — the `varint` subcommand round-trips through `-to` then `-from`; the
`uvarint` subcommand encodes `uint64(n)` and round-trips whenever `n` is
non-negative (hence `0 ≤ n < 2 ^ 63`); unsigned values of `2 ^ 63` and
above are rejected at encode time, as the counterexample shows. -/
theorem claim1_roundtrip_amended (s : String) (n : Int)
    (hp : parseInt64 s = some n) :
    (dovarint ["-to", s] none true = Outcome.printed (hexEncode (putVarint n))
      ∧ dovarint ["-from", hexEncode (putVarint n)] none true
          = Outcome.printed (toString n))
    ∧ (dovarint ["-to", s] none false
          = Outcome.printed (hexEncode (putUvarint (uint64OfInt n)))
      ∧ (0 ≤ n → dovarint ["-from", hexEncode (putUvarint (uint64OfInt n))] none false
          = Outcome.printed (toString n.toNat))) := by
  obtain ⟨hlo, hhi⟩ := parseInt64_range s n hp
  have hs := parseInt64_some_ne_dash s n hp
  refine ⟨⟨?_, ?_⟩, ?_, ?_⟩
  · rw [dovarint_explicit_to s hs none true]
    simp [varintToHex, hp]
  · rw [dovarint_explicit_from _ (hexEncode_ne_dash _) none true]
    exact varintFromHex_signed_eval (putVarint n) (putVarint_mem_lt n) n
      ((putVarint n).length : Int) (varint_roundtrip n hlo hhi)
      (by exact_mod_cast putVarint_length_pos n)
  · rw [dovarint_explicit_to s hs none false]
    simp [varintToHex, hp]
  · intro h0
    rw [dovarint_explicit_from _ (hexEncode_ne_dash _) none false]
    have hrt := uvarint_roundtrip (uint64OfInt n) (uint64OfInt_lt n)
    have := varintFromHex_unsigned_eval (putUvarint (uint64OfInt n))
      (putUvarint_mem_lt _) (uint64OfInt n) ((putUvarint (uint64OfInt n)).length : Int)
      hrt (by exact_mod_cast putUvarint_length_pos _)
    rw [this, uint64OfInt_of_nonneg n h0 hhi]

/-- Witness for C1 (amended) at the concrete decimal 300. -/
theorem claim1_roundtrip_amended_witness :
    parseInt64 "300" = some 300
    ∧ ((dovarint ["-to", "300"] none true
          = Outcome.printed (hexEncode (putVarint 300))
        ∧ dovarint ["-from", hexEncode (putVarint 300)] none true
          = Outcome.printed (toString (300 : Int)))
      ∧ (dovarint ["-to", "300"] none false
          = Outcome.printed (hexEncode (putUvarint (uint64OfInt 300)))
        ∧ (0 ≤ (300 : Int) → dovarint ["-from", hexEncode (putUvarint (uint64OfInt 300))] none false
          = Outcome.printed (toString (300 : Int).toNat)))) :=
  ⟨by decide, claim1_roundtrip_amended "300" 300 (by decide)⟩

/-! ### Claim C4: the argument/stdin resolver -/

/-- C4: a present argument other than the literal `"-"` is returned verbatim
with the used-stdin flag unchanged and independently of stdin; a second
stdin resolution in the same invocation is fatal with the multiple-stdin
error; one stdin-sourced input combined with a literal argument succeeds. -/
theorem claim4_resolver :
    (∀ (args : List String) (n : Nat) (used : Bool) (stdin : Option String) (a : String),
      args[n]? = some a → a ≠ "-" → inputFn args n used stdin = InputRes.ok a used)
    ∧ (∀ (args : List String) (n : Nat) (stdin : Option String),
      (args[n]? = none ∨ args[n]? = some "-") →
      inputFn args n true stdin = InputRes.fatal "can use stdin for only one arg")
    ∧ (∀ (s v : String), v ≠ "-" →
      inputFn ["-", v] 0 false (some s) = InputRes.ok s true
      ∧ inputFn ["-", v] 1 true (some s) = InputRes.ok v true) := by
  refine ⟨?_, ?_, ?_⟩
  · intro args n used stdin a h ha
    exact inputFn_lit args n used stdin a h ha
  · intro args n stdin h
    rcases h with h | h <;> simp [inputFn, h, inputStdin]
  · intro s v hv
    constructor
    · simp [inputFn, inputStdin]
    · simp [inputFn, hv]

/-- Witness for C4 at concrete arguments. -/
theorem claim4_resolver_witness :
    inputFn ["x", "y"] 1 false none = InputRes.ok "y" false
    ∧ inputFn [] 0 true (some "z") = InputRes.fatal "can use stdin for only one arg"
    ∧ inputFn ["-", "lit"] 0 false (some "z") = InputRes.ok "z" true
    ∧ inputFn ["-", "lit"] 1 true (some "z") = InputRes.ok "lit" true :=
  ⟨claim4_resolver.1 ["x", "y"] 1 false none "y" (by decide) (by decide),
   claim4_resolver.2.1 [] 0 (some "z") (Or.inl (by decide)),
   (claim4_resolver.2.2 "z" "lit" (by decide)).1,
   (claim4_resolver.2.2 "z" "lit" (by decide)).2⟩

/-! ### Claim C6: unknown subcommand dispatch -/

/-- C6: a name absent from the registry dispatches to a single fatal
diagnostic that names the unknown command (the message is the
`unknown subcommand "<name>"` line, shown here to contain the name
verbatim), and `errorf` exits with a non-zero status. -/
theorem claim6_unknown_subcommand (name : String)
    (h : subcommands.lookup name = none) :
    mustSubcommand name
      = DispatchResult.fatal ("unknown subcommand \"" ++ name ++ "\"")
    ∧ ∃ pre post : String,
      "unknown subcommand \"" ++ name ++ "\"" = pre ++ (name ++ post) := by
  refine ⟨?_, "unknown subcommand \"", "\"", rfl⟩
  simp [mustSubcommand, h]

/-- Witness for C6 at a concrete unknown name. -/
theorem claim6_unknown_subcommand_witness :
    mustSubcommand "frobnicate"
      = DispatchResult.fatal "unknown subcommand \"frobnicate\"" :=
  ((claim6_unknown_subcommand "frobnicate" (by decide)).1).trans (by decide)

/-! ### Claim C9: block, blockheader and tx are registered and behave alike -/

/-- C9: the registry additionally contains `block`, `blockheader` and `tx`;
dispatching these names does not hit the unknown-subcommand error; each
handler resolves one input, hands it to the external decoder, pretty-prints
the decoded structure on success, and is fatal on a decode failure. -/
theorem claim9_undocumented_commands :
    mustSubcommand "block" = DispatchResult.dispatched
      ⟨Handler.block, "decode and pretty-print a block", "BLOCK"⟩
    ∧ mustSubcommand "blockheader" = DispatchResult.dispatched
      ⟨Handler.blockheader, "decode and pretty-print a block header", "BLOCKHEADER"⟩
    ∧ mustSubcommand "tx" = DispatchResult.dispatched
      ⟨Handler.tx, "decode and pretty-print a transaction", "TX"⟩
    ∧ (∀ (A : Type) (unmarshal : String → Option A) (render : A → String)
        (inp : String) (stdin : Option String), inp ≠ "-" →
      (unmarshal inp = none →
        blockCmd A unmarshal render [inp] stdin = Outcome.fatal "error unmarshaling block"
        ∧ blockheaderCmd A unmarshal render [inp] stdin
            = Outcome.fatal "error unmarshaling blockheader"
        ∧ txCmd A unmarshal render [inp] stdin = Outcome.fatal "error unmarshaling tx")
      ∧ ∀ b, unmarshal inp = some b →
        blockCmd A unmarshal render [inp] stdin = Outcome.printed (render b)
        ∧ blockheaderCmd A unmarshal render [inp] stdin = Outcome.printed (render b)
        ∧ txCmd A unmarshal render [inp] stdin = Outcome.printed (render b)) := by
  refine ⟨by decide, by decide, by decide, ?_⟩
  intro A unmarshal render inp stdin hinp
  have hin : inputFn [inp] 0 false stdin = InputRes.ok inp false :=
    inputFn_lit [inp] 0 false stdin inp rfl hinp
  constructor
  · intro hu
    refine ⟨?_, ?_, ?_⟩ <;> simp [blockCmd, blockheaderCmd, txCmd, hin, hu]
  · intro b hu
    refine ⟨?_, ?_, ?_⟩ <;> simp [blockCmd, blockheaderCmd, txCmd, hin, hu]

/-- Witness for C9 with a concrete always-failing and always-succeeding
decoder. -/
theorem claim9_undocumented_commands_witness :
    blockCmd Unit (fun _ => none) (fun _ => "spew") ["x"] none
      = Outcome.fatal "error unmarshaling block"
    ∧ txCmd Unit (fun _ => some ()) (fun _ => "spew") ["x"] none
      = Outcome.printed "spew" :=
  ⟨((claim9_undocumented_commands.2.2.2 Unit (fun _ => none) (fun _ => "spew")
      "x" none (by decide)).1 rfl).1,
   ((claim9_undocumented_commands.2.2.2 Unit (fun _ => some ()) (fun _ => "spew")
      "x" none (by decide)).2 () rfl).2.2⟩

/-! ### Claim C2: the "could not parse key" error path -/

/-- Modelled from the spec: `hd25519.XPrvFromString` / `XPubFromString` (the
extended-key text parsers) are external collaborators not under src/. Per
spec section 4.3 an extended key carries a version/type tag and a checksum;
short junk strings such as `"zz"` carry neither, so the parse fails. This
parser models that failure for the concrete non-key inputs used below. -/
def xkeyParseReject : String → Option Unit := fun _ => none

/-- Modelled from the spec: `hd25519.PrvFromBytes` / `PubFromBytes` (the raw
key parsers) are external collaborators not under src/. Per spec section 4.3
a raw key has a fixed ed25519 byte length; the short byte lists used below
have a different length, so the parse fails. -/
def rawKeyParseReject : List Nat → Option Unit := fun _ => none

/-- C2 counterexample: the input `"zz"` fails every key interpretation, yet
`pub` exits with the hex-decode diagnostic, not with
`"could not parse key"`: the claim's error message is wrong for inputs that
are not valid hex. -/
theorem claim2_counterexample :
    pubCmd Unit Unit xkeyParseReject rawKeyParseReject (fun _ => "") (fun _ => [])
      ["zz"] none = Outcome.fatal "error decoding hex"
    ∧ pubCmd Unit Unit xkeyParseReject rawKeyParseReject (fun _ => "") (fun _ => [])
      ["zz"] none ≠ Outcome.fatal "could not parse key" := by
  constructor <;> decide

/-- C2 (amended): for key inputs that fail the extended-key parse, the
outcome splits on hex decodability: if the input hex-decodes but the raw-key
parse rejects the bytes, `pub`, `sign` and `verify` all fail fatally with
`"could not parse key"`; if the input is not valid hex, they fail fatally
inside `mustDecodeHex` with the hex-decode diagnostic instead. Both paths
exit with a non-zero status. -/
theorem claim2_amended (XPrv Prv XPub Pub : Type)
    (xprvFromString : String → Option XPrv) (prvFromBytes : List Nat → Option Prv)
    (xprvPublicString : XPrv → String) (prvPublicBytes : Prv → List Nat)
    (xprvSign : XPrv → List Nat → List Nat) (prvSign : Prv → List Nat → List Nat)
    (xpubFromString : String → Option XPub) (pubFromBytes : List Nat → Option Pub)
    (xpubVerify : XPub → List Nat → List Nat → Bool)
    (pubVerify : Pub → List Nat → List Nat → Bool)
    (keyInp rest1 rest2 : String) (stdin : Option String)
    (hk : keyInp ≠ "-") (hr1 : rest1 ≠ "-") (hr2 : rest2 ≠ "-")
    (hx1 : xprvFromString keyInp = none) (hx2 : xpubFromString keyInp = none) :
    (∀ bs, hexDecode keyInp = some bs → prvFromBytes bs = none →
      pubCmd XPrv Prv xprvFromString prvFromBytes xprvPublicString prvPublicBytes
          [keyInp] stdin = Outcome.fatal "could not parse key"
      ∧ signCmd XPrv Prv xprvFromString prvFromBytes xprvSign prvSign
          [keyInp, rest1] stdin = Outcome.fatal "could not parse key")
    ∧ (∀ bs, hexDecode keyInp = some bs → pubFromBytes bs = none →
      verifyCmd XPub Pub xpubFromString pubFromBytes xpubVerify pubVerify
          [keyInp, rest1, rest2] stdin = Outcome.fatal "could not parse key")
    ∧ (hexDecode keyInp = none →
      pubCmd XPrv Prv xprvFromString prvFromBytes xprvPublicString prvPublicBytes
          [keyInp] stdin = Outcome.fatal "error decoding hex"
      ∧ signCmd XPrv Prv xprvFromString prvFromBytes xprvSign prvSign
          [keyInp, rest1] stdin = Outcome.fatal "error decoding hex"
      ∧ verifyCmd XPub Pub xpubFromString pubFromBytes xpubVerify pubVerify
          [keyInp, rest1, rest2] stdin = Outcome.fatal "error decoding hex") := by
  have hin1 : inputFn [keyInp] 0 false stdin = InputRes.ok keyInp false :=
    inputFn_lit _ 0 false stdin keyInp rfl hk
  have hin2a : inputFn [keyInp, rest1] 0 false stdin = InputRes.ok keyInp false :=
    inputFn_lit _ 0 false stdin keyInp rfl hk
  have hin2b : inputFn [keyInp, rest1] 1 false stdin = InputRes.ok rest1 false :=
    inputFn_lit _ 1 false stdin rest1 rfl hr1
  have hin3a : inputFn [keyInp, rest1, rest2] 0 false stdin = InputRes.ok keyInp false :=
    inputFn_lit _ 0 false stdin keyInp rfl hk
  have hin3b : inputFn [keyInp, rest1, rest2] 1 false stdin = InputRes.ok rest1 false :=
    inputFn_lit _ 1 false stdin rest1 rfl hr1
  have hin3c : inputFn [keyInp, rest1, rest2] 2 false stdin = InputRes.ok rest2 false :=
    inputFn_lit _ 2 false stdin rest2 rfl hr2
  refine ⟨?_, ?_, ?_⟩
  · intro bs hhex hraw
    constructor
    · simp [pubCmd, hin1, hx1, hhex, hraw]
    · simp [signCmd, hin2a, hin2b, hx1, hhex, hraw]
  · intro bs hhex hraw
    simp [verifyCmd, hin3a, hin3b, hin3c, hx2, hhex, hraw]
  · intro hhex
    refine ⟨?_, ?_, ?_⟩
    · simp [pubCmd, hin1, hx1, hhex]
    · simp [signCmd, hin2a, hin2b, hx1, hhex]
    · simp [verifyCmd, hin3a, hin3b, hin3c, hx2, hhex]

/-- Witness for C2 (amended): the hex string `"ab"` decodes to one byte,
which no raw-key parser of fixed ed25519 length accepts, so all three
commands report `"could not parse key"`. -/
theorem claim2_amended_witness :
    pubCmd Unit Unit xkeyParseReject rawKeyParseReject (fun _ => "") (fun _ => [])
      ["ab"] none = Outcome.fatal "could not parse key"
    ∧ signCmd Unit Unit xkeyParseReject rawKeyParseReject (fun _ _ => []) (fun _ _ => [])
      ["ab", "00"] none = Outcome.fatal "could not parse key"
    ∧ verifyCmd Unit Unit xkeyParseReject rawKeyParseReject (fun _ _ _ => true) (fun _ _ _ => true)
      ["ab", "00", "00"] none = Outcome.fatal "could not parse key" :=
  ⟨((claim2_amended Unit Unit Unit Unit xkeyParseReject rawKeyParseReject
      (fun _ => "") (fun _ => []) (fun _ _ => []) (fun _ _ => [])
      xkeyParseReject rawKeyParseReject (fun _ _ _ => true) (fun _ _ _ => true)
      "ab" "00" "00" none (by decide) (by decide) (by decide) rfl rfl).1
      [171] (by decide) rfl).1,
   ((claim2_amended Unit Unit Unit Unit xkeyParseReject rawKeyParseReject
      (fun _ => "") (fun _ => []) (fun _ _ => []) (fun _ _ => [])
      xkeyParseReject rawKeyParseReject (fun _ _ _ => true) (fun _ _ _ => true)
      "ab" "00" "00" none (by decide) (by decide) (by decide) rfl rfl).1
      [171] (by decide) rfl).2,
   (claim2_amended Unit Unit Unit Unit xkeyParseReject rawKeyParseReject
      (fun _ => "") (fun _ => []) (fun _ _ => []) (fun _ _ => [])
      xkeyParseReject rawKeyParseReject (fun _ _ _ => true) (fun _ _ _ => true)
      "ab" "00" "00" none (by decide) (by decide) (by decide) rfl rfl).2.1
      [171] (by decide) rfl⟩

/-! ### Claim C7: verify prints a verdict, never a fatal error -/

/-- C7: once the key parses (by either interpretation) and message and
signature hex-decode, `verify` prints exactly the literal `"verified"` when
the boolean verification succeeds and exactly `"not verified"` when it
fails; a failed verification is a printed result, never a fatal error. -/
theorem claim7_verify_verdict (XPub Pub : Type)
    (xpubFromString : String → Option XPub) (pubFromBytes : List Nat → Option Pub)
    (xpubVerify : XPub → List Nat → List Nat → Bool)
    (pubVerify : Pub → List Nat → List Nat → Bool)
    (keyInp msgInp sigInp : String) (stdin : Option String)
    (hk : keyInp ≠ "-") (hm : msgInp ≠ "-") (hs : sigInp ≠ "-")
    (msg sig : List Nat) (hmsg : hexDecode msgInp = some msg)
    (hsig : hexDecode sigInp = some sig) :
    (∀ xpub, xpubFromString keyInp = some xpub →
      verifyCmd XPub Pub xpubFromString pubFromBytes xpubVerify pubVerify
          [keyInp, msgInp, sigInp] stdin
        = Outcome.printed (if xpubVerify xpub msg sig then "verified" else "not verified")
      ∧ (verifyCmd XPub Pub xpubFromString pubFromBytes xpubVerify pubVerify
          [keyInp, msgInp, sigInp] stdin = Outcome.printed "verified"
          ↔ xpubVerify xpub msg sig = true)
      ∧ ∀ m, verifyCmd XPub Pub xpubFromString pubFromBytes xpubVerify pubVerify
          [keyInp, msgInp, sigInp] stdin ≠ Outcome.fatal m)
    ∧ (∀ bs pk, xpubFromString keyInp = none → hexDecode keyInp = some bs →
        pubFromBytes bs = some pk →
      verifyCmd XPub Pub xpubFromString pubFromBytes xpubVerify pubVerify
          [keyInp, msgInp, sigInp] stdin
        = Outcome.printed (if pubVerify pk msg sig then "verified" else "not verified")
      ∧ (verifyCmd XPub Pub xpubFromString pubFromBytes xpubVerify pubVerify
          [keyInp, msgInp, sigInp] stdin = Outcome.printed "verified"
          ↔ pubVerify pk msg sig = true)
      ∧ ∀ m, verifyCmd XPub Pub xpubFromString pubFromBytes xpubVerify pubVerify
          [keyInp, msgInp, sigInp] stdin ≠ Outcome.fatal m) := by
  have hin1 : inputFn [keyInp, msgInp, sigInp] 0 false stdin = InputRes.ok keyInp false :=
    inputFn_lit _ 0 false stdin keyInp rfl hk
  have hin2 : inputFn [keyInp, msgInp, sigInp] 1 false stdin = InputRes.ok msgInp false :=
    inputFn_lit _ 1 false stdin msgInp rfl hm
  have hin3 : inputFn [keyInp, msgInp, sigInp] 2 false stdin = InputRes.ok sigInp false :=
    inputFn_lit _ 2 false stdin sigInp rfl hs
  constructor
  · intro xpub hxp
    have hev : verifyCmd XPub Pub xpubFromString pubFromBytes xpubVerify pubVerify
        [keyInp, msgInp, sigInp] stdin
        = Outcome.printed (if xpubVerify xpub msg sig then "verified" else "not verified") := by
      simp [verifyCmd, hin1, hin2, hin3, hxp, hmsg, hsig]
    refine ⟨hev, ?_, ?_⟩
    · rw [hev]
      cases hv : xpubVerify xpub msg sig <;> simp
    · intro m
      rw [hev]
      cases hv : xpubVerify xpub msg sig <;> simp
  · intro bs pk hxp hhex hraw
    have hev : verifyCmd XPub Pub xpubFromString pubFromBytes xpubVerify pubVerify
        [keyInp, msgInp, sigInp] stdin
        = Outcome.printed (if pubVerify pk msg sig then "verified" else "not verified") := by
      simp [verifyCmd, hin1, hin2, hin3, hxp, hhex, hraw, hmsg, hsig]
    refine ⟨hev, ?_, ?_⟩
    · rw [hev]
      cases hv : pubVerify pk msg sig <;> simp
    · intro m
      rw [hev]
      cases hv : pubVerify pk msg sig <;> simp

/-- Witness for C7: an always-failing verifier prints "not verified". -/
theorem claim7_verify_verdict_witness :
    verifyCmd Unit Unit (fun _ => some ()) (fun _ => none)
      (fun _ _ _ => false) (fun _ _ _ => false) ["aa", "bb", "cc"] none
      = Outcome.printed "not verified"
    ∧ ∀ m, verifyCmd Unit Unit (fun _ => some ()) (fun _ => none)
      (fun _ _ _ => false) (fun _ _ _ => false) ["aa", "bb", "cc"] none
      ≠ Outcome.fatal m := by
  have h := (claim7_verify_verdict Unit Unit (fun _ => some ()) (fun _ => none)
    (fun _ _ _ => false) (fun _ _ _ => false) "aa" "bb" "cc" none
    (by decide) (by decide) (by decide) [187] [204] (by decide) (by decide)).1
    () rfl
  exact ⟨h.1, h.2.2⟩

/-! ### Claim C8: the timed reader leaks the losing goroutine -/

/-- C8 evaluated at the failing scenario: when the wrapped read delivers its
result only at second 7, after the 5-second deadline, `timedReader.Read`
does return `(0, DeadlineExceeded)` as the claim says, but the spawned
goroutine then blocks forever on its send into the unbuffered `readRes`
channel — the awaiting task is leaked, contradicting the claim's
leak-freedom clause. When the read wins the race (second 2), the byte count
and outcome are returned unchanged and the goroutine terminates. -/
theorem claim8_timed_reader_leak :
    timedRead ⟨some 7, 3, false⟩ = (0, some ReadErr.deadlineExceeded)
    ∧ readGoroutineFate ⟨some 7, 3, false⟩ = GoroutineFate.blockedOnChannelSend
    ∧ readGoroutineFate ⟨some 7, 3, false⟩ ≠ GoroutineFate.terminated
    ∧ timedRead ⟨some 2, 4, true⟩ = (4, some ReadErr.eof)
    ∧ readGoroutineFate ⟨some 2, 4, true⟩ = GoroutineFate.terminated := by
  refine ⟨by decide, by decide, by decide, by decide, by decide⟩

end Multitool
